import Mathlib

/-
Shallow embedding of the secret-proxy server (src/src/main.rs).

Rust strings are UTF-8 byte sequences; the header-value checks of the
`http` crate (`HeaderValue::from_str`, `HeaderValue::to_str`) are byte-wise,
so header values and the secret token are modelled as lists of bytes.
-/

namespace SecretProxy

/-- A byte string: a Rust `String`/`&str` viewed as its UTF-8 bytes. -/
abbrev ByteStr := List Nat

/-- Byte accepted by `http::HeaderValue::from_str` (main.rs line 165):
any byte that is `>= 32` and `!= 127`, or the horizontal tab `9`. -/
def isValidHeaderByte (b : Nat) : Bool := (decide (32 ≤ b) && decide (b ≠ 127)) || decide (b = 9)

/-- Byte accepted by `http::HeaderValue::to_str` (used at main.rs line 141):
visible ASCII, i.e. `32 <= b < 127`, or the horizontal tab `9`. -/
def isVisibleAsciiByte (b : Nat) : Bool := (decide (32 ≤ b) && decide (b < 127)) || decide (b = 9)

/-- Model of `HeaderValue::from_str`: succeeds iff every byte is a valid header byte. -/
def headerValueFromStr (s : ByteStr) : Option ByteStr :=
  if s.all isValidHeaderByte then some s else none

/-- Model of `HeaderValue::to_str`: succeeds iff every byte is visible ASCII (or tab). -/
def headerValueToStr (s : ByteStr) : Option ByteStr :=
  if s.all isVisibleAsciiByte then some s else none

/-- The UTF-8 bytes of the string literal `"Bearer "`. -/
def bearerBytes : ByteStr := [66, 101, 97, 114, 101, 114, 32]

/-- Model of the minted string, `format!` of "Bearer " and the secret (main.rs line 164). -/
def mintBearer (secret : ByteStr) : ByteStr := bearerBytes ++ secret

/-- The inbound request's header map, split into the `Authorization` entry
(the only one the program reads or writes) and all remaining headers. -/
structure Headers where
  auth : Option ByteStr
  others : List (String × ByteStr)
deriving DecidableEq, Repr

/-- Result of the middleware: either the (possibly rewritten) request is handed
to the next handler, or a bare status code is returned and no handler runs
(the `Err` branch of `Result<Response, StatusCode>`). -/
inductive MiddlewareResult where
  | handlerRun (req : Headers)
  | status (code : Nat)
deriving DecidableEq, Repr

/-- Model of `my_middleware` (main.rs lines 163-173): mint `"Bearer " + secret_token`,
fail with 500 if it is not a valid header value, otherwise insert it as the
`Authorization` header (overwriting any existing one) and run the handler. -/
def my_middleware (secret : ByteStr) (request : Headers) : MiddlewareResult :=
  match headerValueFromStr (mintBearer secret) with
  | none => .status 500
  | some v => .handlerRun { request with auth := some v }

/-- An outbound request assembled by the `reqwest` builder: method, URL, and
the headers explicitly set on the builder. -/
structure OutboundRequest where
  method : String
  url : String
  headers : List (String × ByteStr)
deriving DecidableEq, Repr

/-- Outcome of `outgoing.send().await`: either a response (with the result of
`res.text()`, `none` when the body could not be decoded as text), or a
transport failure carrying the display text of the error. -/
inductive UpstreamOutcome where
  | ok (status : Nat) (text : Option String)
  | transportErr (cause : String)
deriving DecidableEq, Repr

/-- Model of the `trim_end_matches` call (main.rs line 144): remove every trailing
slash character. -/
def trim_end_matches_slash (s : String) : String :=
  ⟨(s.data.reverse.dropWhile (· == '/')).reverse⟩

/-- The outbound request the proxy handler builds (main.rs lines 139-148):
a GET to `backend_url ++ "/" ++ trimmed path`; the `Authorization` header is
set only when the inbound header is present and `to_str()` succeeds on it. -/
def proxyRequest (backend_url : String) (path : String) (request : Headers) : OutboundRequest :=
  let auth_header := request.auth.bind headerValueToStr
  { method := "GET"
    url := backend_url ++ "/" ++ trim_end_matches_slash path
    headers :=
      match auth_header with
      | some a => [("Authorization", a)]
      | none => [] }

/-- The response the proxy hands back to its own caller. -/
structure HttpResponse where
  status : Nat
  body : String
deriving DecidableEq, Repr

/-- Translation of the upstream outcome (main.rs lines 152-160): any response
becomes 200 with the text body (`unwrap_or_default` substitutes `""`), any
transport error becomes 502 with `"Proxy error: " ++ cause`. -/
def proxyRespond : UpstreamOutcome → HttpResponse
  | .ok _ text => { status := 200, body := text.getD "" }
  | .transportErr e => { status := 502, body := "Proxy error: " ++ e }

/-- The `proxy` handler (main.rs lines 133-161). The first component is the
trace of outbound requests issued (the code sends exactly one); `upstream`
models the network: what `send()` returns for a given outbound request. -/
def proxy (backend_url : String) (path : String) (request : Headers)
    (upstream : OutboundRequest → UpstreamOutcome) : List OutboundRequest × HttpResponse :=
  let out := proxyRequest backend_url path request
  ([out], proxyRespond (upstream out))

/-- Result of running the middleware-plus-proxy pipeline on one inbound
request (the `.layer(from_fn_with_state(...))` composition, main.rs line 100). -/
inductive PipelineResult where
  | proxied (trace : List OutboundRequest) (response : HttpResponse)
  | middlewareStatus (code : Nat)
deriving DecidableEq, Repr

/-- The full request path for a proxied route: middleware first, then the
proxy handler. -/
def pipeline (secret : ByteStr) (backend_url : String) (path : String)
    (request : Headers) (upstream : OutboundRequest → UpstreamOutcome) : PipelineResult :=
  match my_middleware secret request with
  | .status c => .middlewareStatus c
  | .handlerRun req =>
      let r := proxy backend_url path req upstream
      .proxied r.1 r.2

/-- The `Config` struct (main.rs lines 21-28). `port` is a `u16`, kept as a
`Nat` with the bound enforced at deserialization. -/
structure Config where
  backend_url : String
  secret_token : String
  port : Nat
  extra_values : Option String
deriving DecidableEq, Repr

/-- Model of `impl Default for Config` (main.rs lines 31-40). -/
def Config.default : Config :=
  { backend_url := "0.0.0.0"
    secret_token := "my-secret-token"
    port := 3000
    extra_values := none }

/-- A scalar value of the configuration document, as far as the `Config`
fields can consume one: a string, an unsigned integer, or null. -/
inductive Yaml where
  | str (s : String)
  | nat (n : Nat)
  | null
deriving DecidableEq, Repr

/-- The deserializer's in-progress record: which fields have been seen. -/
structure RawConfig where
  backend_url : Option String := none
  secret_token : Option String := none
  port : Option Nat := none
  extra_values : Option (Option String) := none
deriving DecidableEq, Repr

/-- Consume one `key: value` entry of the document, in serde style:
an unknown key is an error (`deny_unknown_fields`), a duplicate key is an
error, a value of the wrong type is an error, `port` must fit in `u16`. -/
def applyField (p : RawConfig) (k : String) (v : Yaml) : Option RawConfig :=
  if k = "backend_url" then
    match p.backend_url, v with
    | none, .str s => some { p with backend_url := some s }
    | _, _ => none
  else if k = "secret_token" then
    match p.secret_token, v with
    | none, .str s => some { p with secret_token := some s }
    | _, _ => none
  else if k = "port" then
    match p.port, v with
    | none, .nat n => if n < 65536 then some { p with port := some n } else none
    | _, _ => none
  else if k = "extra_values" then
    match p.extra_values, v with
    | none, .str s => some { p with extra_values := some (some s) }
    | none, .null => some { p with extra_values := some none }
    | _, _ => none
  else none

/-- Consume the document's entries in order. -/
def applyFields (p : RawConfig) : List (String × Yaml) → Option RawConfig
  | [] => some p
  | (k, v) :: rest =>
    match applyField p k v with
    | none => none
    | some p2 => applyFields p2 rest

/-- Model of `serde_yaml::from_str` into `Config` on a parsed mapping (main.rs line 80),
with `#[serde(deny_unknown_fields, default)]`: unknown fields are an error,
fields absent from the document take their `Default` value. -/
def deserializeConfig (doc : List (String × Yaml)) : Option Config :=
  match applyFields {} doc with
  | none => none
  | some p =>
      some { backend_url := p.backend_url.getD Config.default.backend_url
             secret_token := p.secret_token.getD Config.default.secret_token
             port := p.port.getD Config.default.port
             extra_values := p.extra_values.getD Config.default.extra_values }

/-- What the start of `main` (main.rs lines 80-104) observably does with a
parsed configuration document: on a parse error, exit with code 1 before any
socket is bound; otherwise proceed to bind `0.0.0.0:<port>`. -/
inductive StartupOutcome where
  | exitedBeforeBind (code : Nat)
  | boundSocket (cfg : Config) (bindAddr : String)
deriving DecidableEq, Repr

/-- The configuration phase of `main` for a given document. -/
def mainStartup (doc : List (String × Yaml)) : StartupOutcome :=
  match deserializeConfig doc with
  | none => .exitedBeforeBind 1
  | some cfg => .boundSocket cfg ("0.0.0.0:" ++ toString cfg.port)

/-- The serialisable response record (main.rs lines 15-19). -/
structure ApiResponse where
  data : String
  code : Nat
deriving DecidableEq, Repr

/-- The `health` handler (main.rs lines 113-121). -/
def health : Nat × ApiResponse :=
  (202, { data := "OK", code := 200 })

/-- The `config` handler (main.rs lines 123-131): status 202 Accepted and a
body built from `backend_url` only. -/
def config (cfg : Config) : Nat × ApiResponse :=
  (202, { data := "backend_url:" ++ cfg.backend_url, code := 200 })

/-- One hexadecimal digit, lower case, as emitted by serde_json. -/
def hexDigit (n : Nat) : Char :=
  if n < 10 then Char.ofNat (48 + n) else Char.ofNat (87 + n)

/-- serde_json's escaping of one character inside a JSON string. -/
def jsonEscapeChar (c : Char) : String :=
  if c = '"' then "\\\""
  else if c = '\\' then "\\\\"
  else if c = (Char.ofNat 8) then "\\b"
  else if c = (Char.ofNat 9) then "\\t"
  else if c = (Char.ofNat 10) then "\\n"
  else if c = (Char.ofNat 12) then "\\f"
  else if c = (Char.ofNat 13) then "\\r"
  else if c.toNat < 32 then
    "\\u00" ++ String.singleton (hexDigit (c.toNat / 16)) ++ String.singleton (hexDigit (c.toNat % 16))
  else String.singleton c

/-- serde_json's escaping of a whole string. -/
def jsonEscape (s : String) : String := String.join (s.data.map jsonEscapeChar)

/-- The JSON body `axum::Json` serialises for an `ApiResponse`. -/
def apiResponseBody (r : ApiResponse) : String :=
  "\x7b\"data\":\"" ++ jsonEscape r.data ++ "\",\"code\":" ++ toString r.code ++ "\x7d"

/-- First binding of a key in the configuration document. -/
def lookupField (key : String) : List (String × Yaml) → Option Yaml
  | [] => none
  | (k, v) :: rest => if k = key then some v else lookupField key rest

/-- The string field bound to `key` in the document, when present. -/
def getStrField (key : String) (doc : List (String × Yaml)) : Option String :=
  match lookupField key doc with
  | some (.str s) => some s
  | _ => none

/-- The `port` field of the document, when present. -/
def getPortField (doc : List (String × Yaml)) : Option Nat :=
  match lookupField "port" doc with
  | some (.nat n) => some n
  | _ => none

/-- The `extra_values` field of the document, when present: a string gives
`some s`, an explicit null gives `none`. -/
def getExtraField (doc : List (String × Yaml)) : Option (Option String) :=
  match lookupField "extra_values" doc with
  | some (.str s) => some (some s)
  | some .null => some none
  | _ => none

/-- A document entry the deserializer accepts: a recognized key with a value
of the field's type (`port` must fit in a `u16`). -/
def isValidField (k : String) (v : Yaml) : Bool :=
  if k = "backend_url" then
    match v with
    | .str _ => true
    | _ => false
  else if k = "secret_token" then
    match v with
    | .str _ => true
    | _ => false
  else if k = "port" then
    match v with
    | .nat n => decide (n < 65536)
    | _ => false
  else if k = "extra_values" then
    match v with
    | .str _ => true
    | .null => true
    | _ => false
  else false

/-! Helper lemmas. -/

theorem lookupField_cons_self (key : String) (v : Yaml) (rest : List (String × Yaml)) :
    lookupField key ((key, v) :: rest) = some v := by
  simp [lookupField]

theorem lookupField_cons_ne {k key : String} (h : k ≠ key) (v : Yaml)
    (rest : List (String × Yaml)) :
    lookupField key ((k, v) :: rest) = lookupField key rest := by
  simp [lookupField, h]

theorem cond_tail {α : Type} {o : Option α} {key : String} {kv : String × Yaml}
    {rest : List (String × Yaml)}
    (h : o = none ∨ key ∉ ((kv :: rest).map Prod.fst)) :
    o = none ∨ key ∉ rest.map Prod.fst := by
  rcases h with h | h
  · exact Or.inl h
  · right
    intro hm
    exact h (by simp [hm])

theorem cond_head_none {α : Type} {o : Option α} {key : String} {v : Yaml}
    {rest : List (String × Yaml)}
    (h : o = none ∨ key ∉ (((key, v) :: rest).map Prod.fst)) : o = none := by
  rcases h with h | h
  · exact h
  · exact absurd (by simp) h

theorem visible_all_valid {s : ByteStr} (h : s.all isVisibleAsciiByte = true) :
    s.all isValidHeaderByte = true := by
  rw [List.all_eq_true] at h ⊢
  intro b hb
  have hv := h b hb
  simp only [isVisibleAsciiByte, Bool.or_eq_true, Bool.and_eq_true, decide_eq_true_eq] at hv
  simp only [isValidHeaderByte, Bool.or_eq_true, Bool.and_eq_true, decide_eq_true_eq]
  omega

theorem my_middleware_valid {secret : ByteStr}
    (h : (mintBearer secret).all isValidHeaderByte = true) (request : Headers) :
    my_middleware secret request =
      .handlerRun { request with auth := some (mintBearer secret) } := by
  simp [my_middleware, headerValueFromStr, h]

theorem headerValueToStr_visible {s : ByteStr} (h : s.all isVisibleAsciiByte = true) :
    headerValueToStr s = some s := by
  simp [headerValueToStr, h]

theorem trim_split (s : String) :
    ∃ n, s.data = (trim_end_matches_slash s).data ++ List.replicate n '/' := by
  have hall : ∀ b ∈ s.data.reverse.takeWhile (· == '/'), b = '/' := by
    intro b hb
    simpa using List.mem_takeWhile_imp hb
  have h3 : (s.data.reverse.takeWhile (· == '/')).reverse =
      List.replicate (s.data.reverse.takeWhile (· == '/')).length '/' := by
    rw [← List.reverse_replicate]
    congr 1
    exact List.eq_replicate_of_mem hall
  refine ⟨(s.data.reverse.takeWhile (· == '/')).length, ?_⟩
  show s.data = (s.data.reverse.dropWhile (· == '/')).reverse ++
      List.replicate (s.data.reverse.takeWhile (· == '/')).length '/'
  rw [← h3, ← List.reverse_append, List.takeWhile_append_dropWhile, List.reverse_reverse]

theorem head_dropWhile_not_slash :
    ∀ (l : List Char) (c : Char), (l.dropWhile (· == '/')).head? = some c → (c == '/') = false := by
  intro l
  induction l with
  | nil =>
    intro c h
    simp [List.dropWhile] at h
  | cons a t ih =>
    intro c h
    rw [List.dropWhile_cons] at h
    by_cases ha : (a == '/') = true
    · rw [if_pos ha] at h
      exact ih c h
    · rw [if_neg ha] at h
      simp only [List.head?_cons, Option.some.injEq] at h
      subst h
      exact Bool.not_eq_true _ ▸ (by simpa using ha)

theorem trim_no_trailing_slash (s : String) (c : Char)
    (h : (trim_end_matches_slash s).data.getLast? = some c) : c ≠ '/' := by
  have hd : (s.data.reverse.dropWhile (· == '/')).head? = some c := by
    have : (trim_end_matches_slash s).data = (s.data.reverse.dropWhile (· == '/')).reverse := rfl
    rw [this, List.getLast?_reverse] at h
    exact h
  have hb := head_dropWhile_not_slash _ _ hd
  intro hc
  subst hc
  simp at hb

/-! Claims. -/

/-- Claim C1 is refuted in its final clause: with the secret `[195, 169]`
(each byte `>= 32` and `!= 127`, so the minted value passes the middleware's
`from_str` check) the middleware does overwrite the caller-supplied
`Authorization` header and hands the request to the handler, yet the proxied
outbound request carries no `Authorization` header at all — it does not carry
the server's bearer token. -/
theorem c1_counterexample :
    my_middleware [195, 169] { auth := some [120], others := [] } =
      .handlerRun { auth := some (mintBearer [195, 169]), others := [] } ∧
    pipeline [195, 169] "http://backend" "p" { auth := some [120], others := [] }
        (fun _ => .ok 200 (some "")) =
      .proxied [{ method := "GET", url := "http://backend/p", headers := [] }]
        { status := 200, body := "" } := by
  exact ⟨rfl, rfl⟩

/-- Claim C1 (amended): for every inbound request (whatever `Authorization`
header the caller supplied), the middleware overwrites the `Authorization`
header with `"Bearer " ++ secret_token` before the handler runs; whenever
every byte of the minted value is visible ASCII — the condition under which
the handler's `to_str` succeeds — the outbound proxied request carries
exactly that bearer credential, independent of the caller's header. For
minted values outside visible ASCII that `from_str` still accepts, the
outbound request carries no `Authorization` header (see the counterexample),
so the unconditional form of the claim is false. -/
theorem c1_override_policy (secret : ByteStr) (request : Headers)
    (backend_url path : String) (upstream : OutboundRequest → UpstreamOutcome)
    (hv : (mintBearer secret).all isVisibleAsciiByte = true) :
    my_middleware secret request =
      .handlerRun { auth := some (mintBearer secret), others := request.others } ∧
    pipeline secret backend_url path request upstream =
      .proxied [{ method := "GET",
                  url := backend_url ++ "/" ++ trim_end_matches_slash path,
                  headers := [("Authorization", mintBearer secret)] }]
        (proxyRespond (upstream
          { method := "GET",
            url := backend_url ++ "/" ++ trim_end_matches_slash path,
            headers := [("Authorization", mintBearer secret)] })) := by
  have hmw := my_middleware_valid (visible_all_valid hv) request
  refine ⟨hmw, ?_⟩
  simp only [pipeline, hmw, proxy, proxyRequest, Option.some_bind, headerValueToStr_visible hv]

theorem c1_witness :
    my_middleware [97, 98, 99] { auth := some [120], others := [("X-Api", [118])] } =
      .handlerRun { auth := some (mintBearer [97, 98, 99]), others := [("X-Api", [118])] } ∧
    pipeline [97, 98, 99] "http://backend" "p/"
        { auth := some [120], others := [("X-Api", [118])] }
        (fun _ => .ok 200 (some "hi")) =
      .proxied [{ method := "GET",
                  url := "http://backend" ++ "/" ++ trim_end_matches_slash "p/",
                  headers := [("Authorization", mintBearer [97, 98, 99])] }]
        (proxyRespond (((fun _ => UpstreamOutcome.ok 200 (some "hi")) :
            OutboundRequest → UpstreamOutcome)
          { method := "GET",
            url := "http://backend" ++ "/" ++ trim_end_matches_slash "p/",
            headers := [("Authorization", mintBearer [97, 98, 99])] })) :=
  c1_override_policy [97, 98, 99] { auth := some [120], others := [("X-Api", [118])] }
    "http://backend" "p/" (fun _ => .ok 200 (some "hi")) (by decide)

/-- Claim C2: whenever the upstream exchange completes with any status code,
the proxy returns 200 to its own caller with the upstream body as text, and
an undecodable body is replaced by the empty string rather than an error. -/
theorem c2_upstream_status_masked (backend_url path : String) (request : Headers)
    (upstream : OutboundRequest → UpstreamOutcome) (status : Nat) (text : Option String)
    (h : upstream (proxyRequest backend_url path request) = .ok status text) :
    (proxy backend_url path request upstream).2 = { status := 200, body := text.getD "" } ∧
    (text = none → (proxy backend_url path request upstream).2.body = "") := by
  constructor
  · simp [proxy, h, proxyRespond]
  · intro ht
    simp [proxy, h, proxyRespond, ht]

theorem c2_witness :
    (proxy "http://backend" "x" { auth := none, others := [] }
      (fun _ => .ok 404 (some "not found"))).2 = { status := 200, body := "not found" } :=
  (c2_upstream_status_masked "http://backend" "x" { auth := none, others := [] }
    (fun _ => .ok 404 (some "not found")) 404 (some "not found") rfl).1

/-- Claim C4: the proxy issues exactly one outbound request; it is a GET and
its URL is `backend_url ++ "/" ++ trimmed path`, where trimming removes the
trailing slash characters of the path (and nothing else: the path is the
trimmed path followed by some run of slashes, and the trimmed path does not
itself end in a slash). -/
theorem c4_single_get_url (backend_url path : String) (request : Headers)
    (upstream : OutboundRequest → UpstreamOutcome) :
    (proxy backend_url path request upstream).1.length = 1 ∧
    (∀ o ∈ (proxy backend_url path request upstream).1,
      o.method = "GET" ∧ o.url = backend_url ++ "/" ++ trim_end_matches_slash path) ∧
    (∃ n, path.data = (trim_end_matches_slash path).data ++ List.replicate n '/') ∧
    (∀ c, (trim_end_matches_slash path).data.getLast? = some c → c ≠ '/') := by
  refine ⟨rfl, ?_, trim_split path, trim_no_trailing_slash path⟩
  intro o ho
  have : o = proxyRequest backend_url path request := by
    simpa [proxy] using ho
  subst this
  exact ⟨rfl, rfl⟩

/-- Claim C5: on a transport failure the proxy returns 502 with body
`"Proxy error: " ++ cause`, and the trace still contains exactly one outbound
request: a single attempt, no retry. -/
theorem c5_transport_502 (backend_url path : String) (request : Headers)
    (upstream : OutboundRequest → UpstreamOutcome) (cause : String)
    (h : upstream (proxyRequest backend_url path request) = .transportErr cause) :
    (proxy backend_url path request upstream).2 =
      { status := 502, body := "Proxy error: " ++ cause } ∧
    (proxy backend_url path request upstream).1.length = 1 := by
  constructor
  · simp [proxy, h, proxyRespond]
  · rfl

/-- If the middleware handed a request to the handler, the minted value was a
valid header value and the request is the inbound one with `Authorization`
overwritten. -/
theorem middleware_ok_req (secret : ByteStr) (request req2 : Headers)
    (hmw : my_middleware secret request = .handlerRun req2) :
    req2 = { request with auth := some (mintBearer secret) } ∧
    (mintBearer secret).all isValidHeaderByte = true := by
  have hvalid : (mintBearer secret).all isValidHeaderByte = true := by
    by_contra hc
    rw [Bool.not_eq_true] at hc
    simp [my_middleware, headerValueFromStr, hc] at hmw
  rw [my_middleware_valid hvalid request] at hmw
  injection hmw with h
  exact ⟨h.symm, hvalid⟩

/-- Claim C3 is refuted: the outbound request does not carry the other inbound
headers. With an inbound header `X-Custom: v`, the outbound header set is the
singleton `Authorization` entry and `X-Custom` is absent, while the claim
required every non-Authorization inbound header to be forwarded unchanged. -/
theorem c3_counterexample :
    pipeline [115] "http://backend" "p" { auth := none, others := [("X-Custom", [118])] }
        (fun _ => .ok 200 (some "")) =
      .proxied [{ method := "GET", url := "http://backend/p",
                  headers := [("Authorization", mintBearer [115])] }]
        { status := 200, body := "" } ∧
    ("X-Custom", ([118] : ByteStr)) ∉
      (proxyRequest "http://backend" "p"
        { auth := some (mintBearer [115]), others := [("X-Custom", [118])] }).headers := by
  constructor
  · rfl
  · decide

/-- Claim C3 (amended): the only header the proxy handler sets on the outbound
request is `Authorization`; no other inbound header is forwarded. After a
successful middleware run with a visible-ASCII minted value, the outbound
header set is exactly the singleton bearer entry, whatever other headers the
caller sent. -/
theorem c3_only_auth_header (secret : ByteStr) (request req2 : Headers)
    (backend_url path : String)
    (hmw : my_middleware secret request = .handlerRun req2)
    (hv : (mintBearer secret).all isVisibleAsciiByte = true) :
    (proxyRequest backend_url path req2).headers = [("Authorization", mintBearer secret)] ∧
    ∀ kv ∈ request.others, kv.1 ≠ "Authorization" →
      kv ∉ (proxyRequest backend_url path req2).headers := by
  obtain ⟨hreq2, -⟩ := middleware_ok_req secret request req2 hmw
  subst hreq2
  have hh : (proxyRequest backend_url path
      { request with auth := some (mintBearer secret) }).headers =
      [("Authorization", mintBearer secret)] := by
    simp [proxyRequest, headerValueToStr_visible hv]
  refine ⟨hh, ?_⟩
  intro kv _ hne hmem
  rw [hh] at hmem
  rcases List.mem_singleton.mp hmem with h
  apply hne
  rw [h]

theorem c3_witness :
    (proxyRequest "http://backend" "p"
      { auth := some (mintBearer [115]), others := [("X-Custom", [118])] }).headers =
      [("Authorization", mintBearer [115])] :=
  (c3_only_auth_header [115] { auth := none, others := [("X-Custom", [118])] }
    { auth := some (mintBearer [115]), others := [("X-Custom", [118])] }
    "http://backend" "p" (by decide) (by decide)).1

theorem c5_witness :
    (proxy "http://backend" "x" { auth := none, others := [] }
      (fun _ => .transportErr "connection refused")).2 =
      { status := 502, body := "Proxy error: " ++ "connection refused" } :=
  (c5_transport_502 "http://backend" "x" { auth := none, others := [] }
    (fun _ => .transportErr "connection refused") "connection refused" rfl).1

/-- Claim C9: if the minted `"Bearer " ++ secret_token` string is not a valid
header value the middleware answers 500 and no handler runs; if it is valid,
the middleware never returns a bare status code, it hands the rewritten
request to the handler. -/
theorem c9_header_construction (secret : ByteStr) (request : Headers) :
    ((mintBearer secret).all isValidHeaderByte = false →
      my_middleware secret request = .status 500) ∧
    ((mintBearer secret).all isValidHeaderByte = true →
      my_middleware secret request =
        .handlerRun { request with auth := some (mintBearer secret) } ∧
      ∀ c, my_middleware secret request ≠ .status c) := by
  constructor
  · intro h
    simp [my_middleware, headerValueFromStr, h]
  · intro h
    refine ⟨my_middleware_valid h request, ?_⟩
    intro c
    rw [my_middleware_valid h request]
    simp

theorem c9_witness :
    my_middleware [10] { auth := none, others := [] } = .status 500 ∧
    my_middleware [97] { auth := none, others := [] } =
      .handlerRun { auth := some (mintBearer [97]), others := [] } :=
  ⟨(c9_header_construction [10] { auth := none, others := [] }).1 (by decide),
   ((c9_header_construction [97] { auth := none, others := [] }).2 (by decide)).1⟩

/-- Claim C10 is refuted: with the secret `[195, 169]` (the UTF-8 bytes of an
accented letter, each byte being `>= 32` and `!= 127`) the middleware
succeeds and hands the request on, yet `to_str` fails on the header in the
proxy handler, the omitting branch is taken, and the outbound request carries
no `Authorization` header at all. -/
theorem c10_counterexample :
    my_middleware [195, 169] { auth := none, others := [] } =
      .handlerRun { auth := some (mintBearer [195, 169]), others := [] } ∧
    (proxyRequest "http://backend" "x"
      { auth := some (mintBearer [195, 169]), others := [] }).headers = [] := by
  exact ⟨rfl, rfl⟩

/-- Claim C10 (amended): after a successful middleware run the handler always
reads `Authorization = "Bearer " ++ secret_token`, but the branch omitting the
header from the outbound request is reachable: the header is forwarded iff
every byte of the minted value is visible ASCII, and is dropped when the
secret contains a byte outside visible ASCII (for instance any byte
`>= 128`), even though the middleware accepted it. -/
theorem c10_auth_forwarding (secret : ByteStr) (request req2 : Headers)
    (backend_url path : String)
    (hmw : my_middleware secret request = .handlerRun req2) :
    req2.auth = some (mintBearer secret) ∧
    ((mintBearer secret).all isVisibleAsciiByte = true →
      (proxyRequest backend_url path req2).headers =
        [("Authorization", mintBearer secret)]) ∧
    ((mintBearer secret).all isVisibleAsciiByte = false →
      (proxyRequest backend_url path req2).headers = []) := by
  obtain ⟨hreq2, -⟩ := middleware_ok_req secret request req2 hmw
  subst hreq2
  refine ⟨rfl, ?_, ?_⟩
  · intro h
    simp [proxyRequest, headerValueToStr_visible h]
  · intro h
    have hns : headerValueToStr (mintBearer secret) = none := by
      unfold headerValueToStr
      rw [if_neg]
      simp [h]
    simp [proxyRequest, hns]

theorem c10_witness :
    ({ auth := some (mintBearer [195, 169]), others := [] } : Headers).auth =
      some (mintBearer [195, 169]) ∧
    ((mintBearer [195, 169]).all isVisibleAsciiByte = true →
      (proxyRequest "http://backend" "x"
        { auth := some (mintBearer [195, 169]), others := [] }).headers =
        [("Authorization", mintBearer [195, 169])]) ∧
    ((mintBearer [195, 169]).all isVisibleAsciiByte = false →
      (proxyRequest "http://backend" "x"
        { auth := some (mintBearer [195, 169]), others := [] }).headers = []) :=
  c10_auth_forwarding [195, 169] { auth := none, others := [] }
    { auth := some (mintBearer [195, 169]), others := [] } "http://backend" "x" (by decide)

/-- Claim C6 is refuted in its final clause: under the configuration whose
`backend_url` is the very token string, the serialized /config response body
does contain `secret_token` as a substring (the body embeds `backend_url`,
and nothing prevents the secret from occurring inside it). -/
theorem c6_counterexample :
    List.IsInfix
      (Config.mk "my-secret-token" "my-secret-token" 3000 none).secret_token.data
      (apiResponseBody
        (config (Config.mk "my-secret-token" "my-secret-token" 3000 none)).2).data := by
  decide

/-- Claim C6 (amended): the /config handler is independent of the secret:
any two configurations differing only in `secret_token` yield identical
responses, both as the returned status/record pair and as the serialized
body; the body can only contain the secret when the secret happens to occur
in the text derived from `backend_url`. -/
theorem c6_noninterference (cfg : Config) (s1 s2 : String) :
    config { cfg with secret_token := s1 } = config { cfg with secret_token := s2 } ∧
    apiResponseBody (config { cfg with secret_token := s1 }).2 =
      apiResponseBody (config { cfg with secret_token := s2 }).2 :=
  ⟨rfl, rfl⟩

/-- Running the deserializer over a well-formed document merges the document's
fields into the accumulator, provided no document key collides with an
already-set accumulator field. -/
theorem applyFields_eq (doc : List (String × Yaml)) : ∀ (p : RawConfig),
    (doc.map Prod.fst).Nodup →
    (∀ kv ∈ doc, isValidField kv.1 kv.2 = true) →
    (p.backend_url = none ∨ "backend_url" ∉ doc.map Prod.fst) →
    (p.secret_token = none ∨ "secret_token" ∉ doc.map Prod.fst) →
    (p.port = none ∨ "port" ∉ doc.map Prod.fst) →
    (p.extra_values = none ∨ "extra_values" ∉ doc.map Prod.fst) →
    applyFields p doc = some
      { backend_url := p.backend_url.or (getStrField "backend_url" doc)
        secret_token := p.secret_token.or (getStrField "secret_token" doc)
        port := p.port.or (getPortField doc)
        extra_values := p.extra_values.or (getExtraField doc) } := by
  induction doc with
  | nil =>
    intro p _ _ _ _ _ _
    simp [applyFields, getStrField, getPortField, getExtraField, lookupField]
  | cons kv rest ih =>
    intro p hnd hv hb hs hp he
    obtain ⟨k, v⟩ := kv
    have hvk : isValidField k v = true := hv (k, v) (List.mem_cons_self _ _)
    have hnd' : k ∉ rest.map Prod.fst ∧ (rest.map Prod.fst).Nodup := by
      rw [List.map_cons, List.nodup_cons] at hnd
      exact hnd
    have hvr : ∀ kv ∈ rest, isValidField kv.1 kv.2 = true :=
      fun kv hkv => hv kv (List.mem_cons_of_mem _ hkv)
    by_cases hk1 : k = "backend_url"
    · subst hk1
      cases v with
      | nat n => simp [isValidField] at hvk
      | null => simp [isValidField] at hvk
      | str s =>
        have hbn : p.backend_url = none := cond_head_none hb
        have happ : applyField p "backend_url" (.str s) =
            some { p with backend_url := some s } := by
          simp [applyField, hbn]
        have hrest := ih { p with backend_url := some s } hnd'.2 hvr
          (Or.inr hnd'.1) (cond_tail hs) (cond_tail hp) (cond_tail he)
        simp only [applyFields, happ, hrest, hbn]
        simp [getStrField, getPortField, getExtraField,
          lookupField_cons_self, lookupField_cons_ne]
    · by_cases hk2 : k = "secret_token"
      · subst hk2
        cases v with
        | nat n => simp [isValidField] at hvk
        | null => simp [isValidField] at hvk
        | str s =>
          have hsn : p.secret_token = none := cond_head_none hs
          have happ : applyField p "secret_token" (.str s) =
              some { p with secret_token := some s } := by
            simp [applyField, hsn]
          have hrest := ih { p with secret_token := some s } hnd'.2 hvr
            (cond_tail hb) (Or.inr hnd'.1) (cond_tail hp) (cond_tail he)
          simp only [applyFields, happ, hrest, hsn]
          simp [getStrField, getPortField, getExtraField,
            lookupField_cons_self, lookupField_cons_ne]
      · by_cases hk3 : k = "port"
        · subst hk3
          cases v with
          | str s => simp [isValidField] at hvk
          | null => simp [isValidField] at hvk
          | nat n =>
            have hlt : n < 65536 := by
              simpa [isValidField] using hvk
            have hpn : p.port = none := cond_head_none hp
            have happ : applyField p "port" (.nat n) =
                some { p with port := some n } := by
              simp [applyField, hpn, hlt]
            have hrest := ih { p with port := some n } hnd'.2 hvr
              (cond_tail hb) (cond_tail hs) (Or.inr hnd'.1) (cond_tail he)
            simp only [applyFields, happ, hrest, hpn]
            simp [getStrField, getPortField, getExtraField,
              lookupField_cons_self, lookupField_cons_ne]
        · by_cases hk4 : k = "extra_values"
          · subst hk4
            have hen : p.extra_values = none := cond_head_none he
            cases v with
            | nat n => simp [isValidField] at hvk
            | str s =>
              have happ : applyField p "extra_values" (.str s) =
                  some { p with extra_values := some (some s) } := by
                simp [applyField, hen]
              have hrest := ih { p with extra_values := some (some s) } hnd'.2 hvr
                (cond_tail hb) (cond_tail hs) (cond_tail hp) (Or.inr hnd'.1)
              simp only [applyFields, happ, hrest, hen]
              simp [getStrField, getPortField, getExtraField,
                lookupField_cons_self, lookupField_cons_ne]
            | null =>
              have happ : applyField p "extra_values" Yaml.null =
                  some { p with extra_values := some none } := by
                simp [applyField, hen]
              have hrest := ih { p with extra_values := some none } hnd'.2 hvr
                (cond_tail hb) (cond_tail hs) (cond_tail hp) (Or.inr hnd'.1)
              simp only [applyFields, happ, hrest, hen]
              simp [getStrField, getPortField, getExtraField,
                lookupField_cons_self, lookupField_cons_ne]
          · simp [isValidField, hk1, hk2, hk3, hk4] at hvk

/-- Claim C7: a valid configuration document setting any subset of the four
fields (each recognized key at most once, each value of the field's type)
deserializes to the explicitly set fields merged with the fixed defaults
`backend_url = "0.0.0.0"`, `secret_token = "my-secret-token"`, `port = 3000`,
`extra_values = none`. -/
theorem c7_defaults_merge (doc : List (String × Yaml))
    (hnd : (doc.map Prod.fst).Nodup)
    (hv : ∀ kv ∈ doc, isValidField kv.1 kv.2 = true) :
    deserializeConfig doc = some
      { backend_url := (getStrField "backend_url" doc).getD "0.0.0.0"
        secret_token := (getStrField "secret_token" doc).getD "my-secret-token"
        port := (getPortField doc).getD 3000
        extra_values := (getExtraField doc).getD none } := by
  have h := applyFields_eq doc {} hnd hv (Or.inl rfl) (Or.inl rfl) (Or.inl rfl) (Or.inl rfl)
  simp only [deserializeConfig, h, Option.none_or, Config.default]

theorem c7_witness :
    deserializeConfig [("secret_token", Yaml.str "s3cr3t"), ("port", Yaml.nat 8080)] =
      some { backend_url := "0.0.0.0", secret_token := "s3cr3t",
             port := 8080, extra_values := none } :=
  c7_defaults_merge [("secret_token", Yaml.str "s3cr3t"), ("port", Yaml.nat 8080)]
    (by decide) (by decide)

/-- A document containing an entry with an unrecognized key is rejected
wherever the deserializer starts from. -/
theorem applyFields_unknown_key (k : String) (v : Yaml)
    (hk : k ≠ "backend_url" ∧ k ≠ "secret_token" ∧ k ≠ "port" ∧ k ≠ "extra_values") :
    ∀ (doc : List (String × Yaml)), (k, v) ∈ doc → ∀ p, applyFields p doc = none := by
  intro doc
  induction doc with
  | nil =>
    intro h
    simp at h
  | cons kv rest ih =>
    intro hmem p
    rcases List.mem_cons.mp hmem with heq | hm
    · subst heq
      have happ : applyField p k v = none := by
        simp [applyField, hk.1, hk.2.1, hk.2.2.1, hk.2.2.2]
      simp [applyFields, happ]
    · obtain ⟨k2, v2⟩ := kv
      cases happ : applyField p k2 v2 with
      | none => simp [applyFields, happ]
      | some p2 =>
        simp only [applyFields, happ]
        exact ih hm p2

/-- Claim C8: a configuration document containing a field outside the
recognized set fails to deserialize, and `main` then exits with code 1 before
ever binding a listening socket (the startup outcome is `exitedBeforeBind`,
never `boundSocket`). -/
theorem c8_unknown_field_fatal (doc : List (String × Yaml)) (k : String) (v : Yaml)
    (hmem : (k, v) ∈ doc)
    (hk : k ∉ (["backend_url", "secret_token", "port", "extra_values"] : List String)) :
    deserializeConfig doc = none ∧
    mainStartup doc = .exitedBeforeBind 1 ∧
    ∀ cfg addr, mainStartup doc ≠ .boundSocket cfg addr := by
  have hk4 : k ≠ "backend_url" ∧ k ≠ "secret_token" ∧ k ≠ "port" ∧ k ≠ "extra_values" := by
    simp only [List.mem_cons, List.mem_singleton, not_or] at hk
    exact ⟨hk.1, hk.2.1, hk.2.2.1, by simpa using hk.2.2.2⟩
  have hnone : applyFields {} doc = none := applyFields_unknown_key k v hk4 doc hmem {}
  refine ⟨?_, ?_, ?_⟩
  · simp [deserializeConfig, hnone]
  · simp [mainStartup, deserializeConfig, hnone]
  · intro cfg addr
    simp [mainStartup, deserializeConfig, hnone]

theorem c8_witness :
    deserializeConfig [("prot", Yaml.nat 3000)] = none ∧
    mainStartup [("prot", Yaml.nat 3000)] = .exitedBeforeBind 1 ∧
    ∀ cfg addr, mainStartup [("prot", Yaml.nat 3000)] ≠ .boundSocket cfg addr :=
  c8_unknown_field_fatal [("prot", Yaml.nat 3000)] "prot" (Yaml.nat 3000)
    (by decide) (by decide)

end SecretProxy
